import Mathlib

/-!
Shallow embedding of the dataset/view pipeline of the Bar widget
(`src/src/Bar/index.tsx`): dataset generation, date-range filtering,
sort toggling, scroll pagination, row chunking and the stats panel.

Timestamps are modelled as `Int` milliseconds since the Unix epoch
(the value of `Date.prototype.getTime`).  A JavaScript `Date` holds an
integral millisecond value in `[-8640000000000000, 8640000000000000]`,
or is invalid (its time value is NaN); an invalid date is modelled by
`Option.none` wherever it can arise.  `Math.random()`-derived values are
modelled as explicit parameters carrying their range as hypotheses.
-/

namespace Bar

/-- The `DateCell` record type of the source: `{ id: string; timestamp: Date }`,
with the timestamp as its millisecond time value. -/
structure DateCell where
  id : String
  timestamp : Int
  deriving DecidableEq

/-- Milliseconds in one minute, the unit added by `addMinutes`. -/
def MS_PER_MINUTE : Int := 60000

/-- Milliseconds in one day, the unit added by `addDays`. -/
def MS_PER_DAY : Int := 86400000

/-- The largest time value of a valid JavaScript `Date`; the source uses it
as `new Date(8640000000000000)` for an absent end bound. -/
def MAX_DATE_MS : Int := 8640000000000000

/-- The smallest time value of a valid JavaScript `Date` (the minimum
representable instant).  The source never uses it; it appears only in the
spec-side filter semantics below. -/
def MIN_DATE_MS : Int := -8640000000000000

/-- The id string `row-col` built by `generateGrid` via the template
literal `\x7b row \x7d-\x7b col \x7d`. -/
def cellId (row col : Nat) : String :=
  toString row ++ "-" ++ toString col

/-- `generateRandomDate(baseDate)` from the source:
`addMinutes(addDays(baseDate, randomDays), randomMinutes)` where
`randomDays = Math.floor(Math.random() * 365)` and
`randomMinutes = Math.floor(Math.random() * 1440)`.  The two sampled
numbers are passed explicitly. -/
def generateRandomDate (baseDate : Int) (randomDays randomMinutes : Nat) : Int :=
  baseDate + (randomDays : Int) * MS_PER_DAY + (randomMinutes : Int) * MS_PER_MINUTE

/-- `generateGrid(rows, cols)` from the source: a `rows × cols` grid of
cells, row major, cell `(row, col)` carrying id `row-col` and a random
timestamp from `generateRandomDate`.  `baseDate` stands for
`startOfDay(new Date())` and `randDays`/`randMins` for the per-cell
`Math.random` draws. -/
def generateGrid (rows cols : Nat) (baseDate : Int)
    (randDays randMins : Nat → Nat → Nat) : List (List DateCell) :=
  (List.range rows).map fun row =>
    (List.range cols).map fun col =>
      { id := cellId row col
        timestamp := generateRandomDate baseDate (randDays row col) (randMins row col) }

/-- A date text input as `handleFilter` receives it: the empty string
(falsy, so the default bound is used), a non-empty string parsing to a
valid date with millisecond value `ms`, or a non-empty unparseable string
(`new Date(s)` is an invalid date). -/
inductive DateText where
  | empty
  | valid (ms : Int)
  | invalid
  deriving DecidableEq

/-- The start bound computed by `handleFilter`:
`start ? new Date(start) : new Date(0)`.  `none` models an invalid date. -/
def startDateOf : DateText → Option Int
  | DateText.empty => some 0
  | DateText.valid ms => some ms
  | DateText.invalid => none

/-- The end bound computed by `handleFilter`:
`end ? new Date(end) : new Date(8640000000000000)`.  `none` models an
invalid date. -/
def endDateOf : DateText → Option Int
  | DateText.empty => some MAX_DATE_MS
  | DateText.valid ms => some ms
  | DateText.invalid => none

/-- JavaScript `t >= d` on dates: false whenever `d` is invalid (NaN). -/
def dateGe (t : Int) : Option Int → Bool
  | some d => decide (d ≤ t)
  | none => false

/-- JavaScript `t <= d` on dates: false whenever `d` is invalid (NaN). -/
def dateLe (t : Int) : Option Int → Bool
  | some d => decide (t ≤ d)
  | none => false

/-- The filtering performed by `handleFilter`:
`flatCells.filter((cell) => cell.timestamp >= startDate && cell.timestamp <= endDate)`. -/
def handleFilter (flatCells : List DateCell) (startText endText : DateText) : List DateCell :=
  flatCells.filter fun cell =>
    dateGe cell.timestamp (startDateOf startText) && dateLe cell.timestamp (endDateOf endText)

/-- The view state of the Bar component: the `filteredCells`, `page` and
`sortAsc` `useState` hooks. -/
structure ViewState where
  filteredCells : List DateCell
  page : Nat
  sortAsc : Bool
  deriving DecidableEq

/-- The initial view state: `filteredCells = flatCells`, `page = 1`,
`sortAsc = true`. -/
def initState (flatCells : List DateCell) : ViewState :=
  { filteredCells := flatCells, page := 1, sortAsc := true }

/-- `handleFilter` as a state transition: `setFilteredCells(filtered)`
and `setPage(1)`. -/
def handleFilterState (flatCells : List DateCell) (startText endText : DateText)
    (s : ViewState) : ViewState :=
  { s with filteredCells := handleFilter flatCells startText endText, page := 1 }

/-- `handleSortToggle` from the source:
`[...filteredCells].sort((a, b) => sortAsc ? b - a : a - b)` then
`setSortAsc(!sortAsc)`.  `Array.prototype.sort` is stable and orders `a`
before `b` when the comparator is `≤ 0`, which for the comparator
`b.timestamp - a.timestamp` is `b.timestamp ≤ a.timestamp`; it is
modelled by the stable `List.mergeSort` with that boolean relation. -/
def handleSortToggle (s : ViewState) : ViewState :=
  { s with
    filteredCells :=
      if s.sortAsc then
        s.filteredCells.mergeSort fun a b => decide (b.timestamp ≤ a.timestamp)
      else
        s.filteredCells.mergeSort fun a b => decide (a.timestamp ≤ b.timestamp)
    sortAsc := !s.sortAsc }

/-- `n` successive clicks of the sort toggle button. -/
def applyToggles : Nat → ViewState → ViewState
  | 0, s => s
  | n + 1, s => handleSortToggle (applyToggles n s)

/-- `handleScroll` from the source: when
`scrollTop + clientHeight >= scrollHeight - 50` it runs
`setPage((prev) => prev + 1)`; otherwise the state is unchanged. -/
def handleScroll (scrollTop scrollHeight clientHeight : Int) (s : ViewState) : ViewState :=
  if scrollTop + clientHeight ≥ scrollHeight - 50 then { s with page := s.page + 1 } else s

/-- The `PAGE_SIZE` constant of the source. -/
def PAGE_SIZE : Nat := 20

/-- `visibleCells = filteredCells.slice(0, page * PAGE_SIZE)`. -/
def visibleCells (s : ViewState) : List DateCell :=
  s.filteredCells.take (s.page * PAGE_SIZE)

/-- The `groupedRows` loop of the source:
`for (i = 0; i < visibleCells.length; i += 10) push(visibleCells.slice(i, i + 10))`. -/
def groupedRows : List DateCell → List (List DateCell)
  | [] => []
  | c :: rest => (c :: rest).take 10 :: groupedRows ((c :: rest).drop 10)
  termination_by l => l.length
  decreasing_by simp [List.length_drop]; omega

/-- The values computed by the `StatsSection` component. -/
structure Stats where
  count : Nat
  earliest : Option Int
  latest : Option Int
  deriving DecidableEq

/-- `Math.min(...timestamps)`: `none` models the `Infinity` returned on an
empty spread, which turns into an invalid date under `new Date`. -/
def jsMinOver : List Int → Option Int
  | [] => none
  | t :: ts => some (ts.foldl min t)

/-- `Math.max(...timestamps)`: `none` models the `-Infinity` returned on
an empty spread, which turns into an invalid date under `new Date`. -/
def jsMaxOver : List Int → Option Int
  | [] => none
  | t :: ts => some (ts.foldl max t)

/-- The statistics computed by `StatsSection`: cell count, and
`new Date(Math.min(...))` / `new Date(Math.max(...))` over the cell
timestamps (invalid, i.e. `none`, when the cell list is empty). -/
def StatsSection (cells : List DateCell) : Stats :=
  { count := cells.length
    earliest := jsMinOver (cells.map fun c => c.timestamp)
    latest := jsMaxOver (cells.map fun c => c.timestamp) }

/-- Modelled from the spec: the filter semantics as the claim words them,
with an absent start bound behaving as the minimum representable instant
and an absent end bound as the maximum representable instant.  Used only
to compare the claimed semantics with `handleFilter`. -/
def filterClaimedSemantics (cells : List DateCell) (startB endB : Option Int) : List DateCell :=
  cells.filter fun c =>
    decide (startB.getD MIN_DATE_MS ≤ c.timestamp) && decide (c.timestamp ≤ endB.getD MAX_DATE_MS)

/-- An optional (absent or parseable) bound as the corresponding date
text: an absent bound is the empty input string. -/
def optBound : Option Int → DateText
  | none => DateText.empty
  | some v => DateText.valid v

/-- Numeric value of a decimal digit character. -/
def digitVal (c : Char) : Nat := c.toNat - 48

/-- Decimal value of a string of digit characters. -/
def strVal (s : String) : Nat :=
  s.data.foldl (fun a c => 10 * a + digitVal c) 0

/-- A concrete twelve-cell list used to witness chunking properties. -/
def sampleCells : List DateCell :=
  [⟨"0", 0⟩, ⟨"1", 1⟩, ⟨"2", 2⟩, ⟨"3", 3⟩, ⟨"4", 4⟩, ⟨"5", 5⟩,
   ⟨"6", 6⟩, ⟨"7", 7⟩, ⟨"8", 8⟩, ⟨"9", 9⟩, ⟨"10", 10⟩, ⟨"11", 11⟩]

/-! Theorems. -/

theorem groupedRows_nil : groupedRows [] = [] := by
  rw [groupedRows]

theorem groupedRows_cons (c : DateCell) (rest : List DateCell) :
    groupedRows (c :: rest) = (c :: rest).take 10 :: groupedRows ((c :: rest).drop 10) := by
  rw [groupedRows]

theorem groupedRows_flatten (l : List DateCell) : (groupedRows l).flatten = l := by
  induction l using groupedRows.induct with
  | case1 => rw [groupedRows_nil]; rfl
  | case2 c rest ih =>
    rw [groupedRows_cons, List.flatten_cons, ih, List.take_append_drop]

theorem groupedRows_chunk_small (l : List DateCell) :
    ∀ r ∈ groupedRows l, r.length ≤ 10 := by
  induction l using groupedRows.induct with
  | case1 => intro r hr; rw [groupedRows_nil] at hr; cases hr
  | case2 c rest ih =>
    rw [groupedRows_cons]
    intro r hr
    rcases List.mem_cons.mp hr with rfl | hr
    · simp [List.length_take]
    · exact ih r hr

theorem groupedRows_ne_nil (c : DateCell) (rest : List DateCell) :
    groupedRows (c :: rest) ≠ [] := by
  rw [groupedRows_cons]
  exact List.cons_ne_nil _ _

theorem groupedRows_dropLast_full (l : List DateCell) :
    ∀ r ∈ (groupedRows l).dropLast, r.length = 10 := by
  induction l using groupedRows.induct with
  | case1 => intro r hr; rw [groupedRows_nil] at hr; cases hr
  | case2 c rest ih =>
    rw [groupedRows_cons]
    intro r hr
    rcases hd : (c :: rest).drop 10 with _ | ⟨d, rest2⟩
    · rw [hd, groupedRows_nil] at hr
      cases hr
    · rw [hd] at hr
      rw [List.dropLast_cons_of_ne_nil (groupedRows_ne_nil d rest2)] at hr
      rcases List.mem_cons.mp hr with rfl | hr
      · have hlen : 10 ≤ (c :: rest).length := by
          by_contra hcon
          have hnil : (c :: rest).drop 10 = [] := by
            apply List.drop_eq_nil_of_le
            omega
          rw [hnil] at hd
          cases hd
        simp only [List.length_take, List.length_cons] at hlen ⊢
        omega
      · exact ih r (hd ▸ hr)

/-- C7: for every visible slice, `groupedRows` partitions it into
consecutive chunks of width 10, every chunk except possibly the final one
has length exactly 10, no chunk exceeds 10, and concatenating the chunks
in order reconstructs the slice exactly. -/
theorem groupedRows_spec (l : List DateCell) :
    (groupedRows l).flatten = l
    ∧ (∀ r ∈ groupedRows l, r.length ≤ 10)
    ∧ (∀ r ∈ (groupedRows l).dropLast, r.length = 10) :=
  ⟨groupedRows_flatten l, groupedRows_chunk_small l, groupedRows_dropLast_full l⟩

/-- Witness for C7 on a concrete twelve-cell slice: the first chunk is a
full row of 10 and the chunks concatenate back to the slice. -/
theorem groupedRows_spec_witness :
    (groupedRows sampleCells).flatten = sampleCells
    ∧ (sampleCells.take 10).length ≤ 10
    ∧ (sampleCells.take 10).length = 10 := by
  have h := groupedRows_spec sampleCells
  refine ⟨h.1, h.2.1 (sampleCells.take 10) ?_, h.2.2 (sampleCells.take 10) ?_⟩
  · simp [sampleCells, groupedRows]
  · simp [sampleCells, groupedRows]

/-- C5: for every state with page ≥ 1, the visible slice has length
exactly min(page * PAGE_SIZE, filteredSet.length), and in particular it
never exceeds the filtered set's length. -/
theorem visibleCells_length_spec (s : ViewState) (_hpage : 1 ≤ s.page) :
    (visibleCells s).length = min (s.page * PAGE_SIZE) s.filteredCells.length
    ∧ (visibleCells s).length ≤ s.filteredCells.length := by
  constructor
  · simp [visibleCells]
  · simp only [visibleCells, List.length_take]
    omega

/-- Witness for C5 at a concrete state: one cell filtered, page 2. -/
theorem visibleCells_length_spec_witness :
    1 ≤ (ViewState.mk [⟨"0-0", 5⟩] 2 true).page
    ∧ ((visibleCells (ViewState.mk [⟨"0-0", 5⟩] 2 true)).length
          = min ((ViewState.mk [⟨"0-0", 5⟩] 2 true).page * PAGE_SIZE)
              (ViewState.mk [⟨"0-0", 5⟩] 2 true).filteredCells.length
        ∧ (visibleCells (ViewState.mk [⟨"0-0", 5⟩] 2 true)).length
          ≤ (ViewState.mk [⟨"0-0", 5⟩] 2 true).filteredCells.length) :=
  ⟨by decide, visibleCells_length_spec (ViewState.mk [⟨"0-0", 5⟩] 2 true) (by decide)⟩

/-- C6: whenever the scroll position is within 50 layout units of the
bottom, `handleScroll` increments the page by exactly one, regardless of
the filtered set (no bound check); three triggered calls from page 1
yield page 4; and the visible slice never exceeds the filtered set's
length, so scrolling past the end only fails to add items. -/
theorem handleScroll_spec (scrollTop scrollHeight clientHeight : Int) (s : ViewState)
    (htrigger : scrollTop + clientHeight ≥ scrollHeight - 50) :
    (handleScroll scrollTop scrollHeight clientHeight s).page = s.page + 1
    ∧ (handleScroll scrollTop scrollHeight clientHeight s).filteredCells = s.filteredCells
    ∧ (s.page = 1 →
        (handleScroll scrollTop scrollHeight clientHeight
          (handleScroll scrollTop scrollHeight clientHeight
            (handleScroll scrollTop scrollHeight clientHeight s))).page = 4)
    ∧ (visibleCells s).length ≤ s.filteredCells.length := by
  have he : ∀ s' : ViewState,
      handleScroll scrollTop scrollHeight clientHeight s' = { s' with page := s'.page + 1 } := by
    intro s'
    simp only [handleScroll]
    exact if_pos htrigger
  refine ⟨?_, ?_, ?_, ?_⟩
  · rw [he]
  · rw [he]
  · intro h1
    rw [he, he, he]
    simp [h1]
  · simp only [visibleCells, List.length_take]
    omega

/-- Witness for C6 at a concrete near-bottom scroll geometry and a state
whose single page already exhausts the filtered set. -/
theorem handleScroll_spec_witness :
    (950 : Int) + 100 ≥ 1100 - 50
    ∧ ((handleScroll 950 1100 100 (ViewState.mk [⟨"0-0", 5⟩] 1 true)).page
          = (ViewState.mk [⟨"0-0", 5⟩] 1 true).page + 1
        ∧ (handleScroll 950 1100 100 (ViewState.mk [⟨"0-0", 5⟩] 1 true)).filteredCells
          = (ViewState.mk [⟨"0-0", 5⟩] 1 true).filteredCells
        ∧ ((ViewState.mk [⟨"0-0", 5⟩] 1 true).page = 1 →
            (handleScroll 950 1100 100 (handleScroll 950 1100 100
              (handleScroll 950 1100 100 (ViewState.mk [⟨"0-0", 5⟩] 1 true)))).page = 4)
        ∧ (visibleCells (ViewState.mk [⟨"0-0", 5⟩] 1 true)).length
          ≤ (ViewState.mk [⟨"0-0", 5⟩] 1 true).filteredCells.length) :=
  ⟨by decide, handleScroll_spec 950 1100 100 (ViewState.mk [⟨"0-0", 5⟩] 1 true) (by decide)⟩

/-- C10: a filter submission recomputes from the original dataset, not
from the current filtered set: after any number of sort toggles the
resulting filtered set equals the pure filter of the dataset, it is a
sublist of the dataset (so matching records appear in original
generation order), and the result does not depend on the prior view
state at all. -/
theorem handleFilter_from_dataset_spec (cells : List DateCell)
    (startText endText : DateText) (n : Nat) (s1 s2 : ViewState) :
    (handleFilterState cells startText endText
        (applyToggles n (initState cells))).filteredCells
      = handleFilter cells startText endText
    ∧ (handleFilterState cells startText endText s1).filteredCells
      = (handleFilterState cells startText endText s2).filteredCells
    ∧ (handleFilter cells startText endText).Sublist cells :=
  ⟨rfl, rfl, List.filter_sublist cells⟩

theorem handleFilter_optBound (cells : List DateCell) (sb eb : Option Int) :
    handleFilter cells (optBound sb) (optBound eb)
      = cells.filter fun c =>
          decide (sb.getD 0 ≤ c.timestamp) && decide (c.timestamp ≤ eb.getD MAX_DATE_MS) := by
  cases sb <;> cases eb <;> rfl

/-- C1 counterexample: on a dataset holding one record with a pre-epoch
timestamp, a filter submission with both bounds absent returns the empty
list, although the record's timestamp lies between the minimum and the
maximum representable instants, so the claimed semantics (absent start =
minimum representable instant) would return the whole dataset. -/
theorem handleFilter_min_instant_cex :
    handleFilter [⟨"0-0", -1⟩] DateText.empty DateText.empty = []
    ∧ filterClaimedSemantics [⟨"0-0", -1⟩] none none = [⟨"0-0", -1⟩]
    ∧ MIN_DATE_MS ≤ -1 ∧ (-1 : Int) ≤ MAX_DATE_MS := by
  refine ⟨rfl, rfl, by decide, by decide⟩

/-- C1 (amended): a filter call returns exactly the records whose
timestamp lies in the closed interval whose lower end is the given start
bound, defaulting to the Unix epoch (instant 0, not the minimum
representable instant) when absent, and whose upper end is the given end
bound, defaulting to the maximum representable instant when absent; it
resets the page to 1; and when every timestamp of the dataset lies
between the epoch and the maximum representable instant (as generated
datasets do), a submission with both bounds absent returns the entire
dataset with its order preserved. -/
theorem handleFilter_bounds_spec (cells : List DateCell) (sb eb : Option Int) (s : ViewState) :
    (handleFilterState cells (optBound sb) (optBound eb) s).filteredCells
      = cells.filter (fun c =>
          decide (sb.getD 0 ≤ c.timestamp) && decide (c.timestamp ≤ eb.getD MAX_DATE_MS))
    ∧ (handleFilterState cells (optBound sb) (optBound eb) s).page = 1
    ∧ ((∀ c ∈ cells, 0 ≤ c.timestamp ∧ c.timestamp ≤ MAX_DATE_MS) →
        (handleFilterState cells (optBound none) (optBound none) s).filteredCells = cells) := by
  refine ⟨handleFilter_optBound cells sb eb, rfl, ?_⟩
  intro hall
  show handleFilter cells (optBound none) (optBound none) = cells
  rw [handleFilter_optBound]
  apply List.filter_eq_self.mpr
  intro c hc
  have h := hall c hc
  simp only [Option.getD, Bool.and_eq_true, decide_eq_true_eq]
  exact h

/-- Witness for C1 at a concrete dataset and bounds: filtering `[5]` with
start 3 and absent end keeps the record, resets the page, and the
all-absent submission returns the dataset. -/
theorem handleFilter_bounds_spec_witness :
    ((handleFilterState [⟨"0-0", 5⟩] (optBound (some 3)) (optBound none)
          (ViewState.mk [] 7 false)).filteredCells
        = [(⟨"0-0", 5⟩ : DateCell)].filter (fun c =>
            decide ((some (3 : Int)).getD 0 ≤ c.timestamp)
              && decide (c.timestamp ≤ (none : Option Int).getD MAX_DATE_MS))
      ∧ (handleFilterState [⟨"0-0", 5⟩] (optBound (some 3)) (optBound none)
          (ViewState.mk [] 7 false)).page = 1
      ∧ ((∀ c ∈ [(⟨"0-0", 5⟩ : DateCell)], 0 ≤ c.timestamp ∧ c.timestamp ≤ MAX_DATE_MS) →
          (handleFilterState [⟨"0-0", 5⟩] (optBound none) (optBound none)
            (ViewState.mk [] 7 false)).filteredCells = [⟨"0-0", 5⟩]))
    ∧ (∀ c ∈ [(⟨"0-0", 5⟩ : DateCell)], 0 ≤ c.timestamp ∧ c.timestamp ≤ MAX_DATE_MS) :=
  ⟨handleFilter_bounds_spec [⟨"0-0", 5⟩] (some 3) none (ViewState.mk [] 7 false),
    by decide⟩

/-- C4 counterexample: with a non-empty unparseable start text the filter
returns the empty set, while the same submission with that bound absent
(empty text) returns the record, so an unparseable bound does not behave
as an absent one. -/
theorem handleFilter_unparseable_cex :
    handleFilter [⟨"0-0", 5⟩] DateText.invalid DateText.empty = []
    ∧ handleFilter [⟨"0-0", 5⟩] DateText.empty DateText.empty = [⟨"0-0", 5⟩] :=
  ⟨rfl, rfl⟩

/-- C4 (amended): an empty date text behaves as an absent bound (the
open-interval default), but a non-empty unparseable date text produces an
invalid date whose comparisons are all false, so the filtered set comes
back empty; the submission is never rejected — the handler still returns
normally and resets the page to 1. -/
theorem handleFilter_unparseable_spec (cells : List DateCell) (t : DateText) (s : ViewState) :
    (handleFilterState cells DateText.invalid t s).filteredCells = []
    ∧ (handleFilterState cells t DateText.invalid s).filteredCells = []
    ∧ (handleFilterState cells DateText.invalid t s).page = 1
    ∧ (handleFilterState cells t DateText.invalid s).page = 1 := by
  refine ⟨?_, ?_, rfl, rfl⟩
  · show handleFilter cells DateText.invalid t = []
    apply List.filter_eq_nil_iff.mpr
    intro c _
    simp [dateGe, startDateOf]
  · show handleFilter cells t DateText.invalid = []
    apply List.filter_eq_nil_iff.mpr
    intro c _
    simp [dateLe, endDateOf]

theorem descCmp_trans (a b c : DateCell) :
    decide (b.timestamp ≤ a.timestamp) → decide (c.timestamp ≤ b.timestamp) →
      decide (c.timestamp ≤ a.timestamp) := by
  simp only [decide_eq_true_eq]
  omega

theorem descCmp_total (a b : DateCell) :
    decide (b.timestamp ≤ a.timestamp) || decide (a.timestamp ≤ b.timestamp) := by
  simp only [Bool.or_eq_true, decide_eq_true_eq]
  omega

theorem ascCmp_trans (a b c : DateCell) :
    decide (a.timestamp ≤ b.timestamp) → decide (b.timestamp ≤ c.timestamp) →
      decide (a.timestamp ≤ c.timestamp) := by
  simp only [decide_eq_true_eq]
  omega

theorem ascCmp_total (a b : DateCell) :
    decide (a.timestamp ≤ b.timestamp) || decide (b.timestamp ≤ a.timestamp) := by
  simp only [Bool.or_eq_true, decide_eq_true_eq]
  omega

theorem handleSortToggle_perm (s : ViewState) :
    List.Perm (handleSortToggle s).filteredCells s.filteredCells := by
  rcases s with ⟨fc, pg, sa⟩
  cases sa <;> simpa [handleSortToggle] using List.mergeSort_perm fc _

/-- C2: toggling the sort reorders the current filtered set by timestamp
into a permutation of it (membership unchanged), flips the direction flag
each call, and — because the flag starts true — a toggle from a
`sortAsc = true` state (in particular the first toggle from the initial
state) produces descending order, while from a `sortAsc = false` state it
produces ascending order. -/
theorem handleSortToggle_spec (s : ViewState) :
    List.Perm (handleSortToggle s).filteredCells s.filteredCells
    ∧ (handleSortToggle s).sortAsc = !s.sortAsc
    ∧ (s.sortAsc = true →
        (handleSortToggle s).filteredCells.Pairwise fun a b => b.timestamp ≤ a.timestamp)
    ∧ (s.sortAsc = false →
        (handleSortToggle s).filteredCells.Pairwise fun a b => a.timestamp ≤ b.timestamp) := by
  refine ⟨handleSortToggle_perm s, rfl, ?_, ?_⟩
  · intro hsa
    rcases s with ⟨fc, pg, sa⟩
    cases hsa
    have h := @List.sorted_mergeSort DateCell
      (fun a b : DateCell => decide (b.timestamp ≤ a.timestamp))
      descCmp_trans descCmp_total fc
    simp only [handleSortToggle, if_pos rfl]
    exact h.imp (by simp only [decide_eq_true_eq]; exact fun h => h)
  · intro hsa
    rcases s with ⟨fc, pg, sa⟩
    cases hsa
    have h := @List.sorted_mergeSort DateCell
      (fun a b : DateCell => decide (a.timestamp ≤ b.timestamp))
      ascCmp_trans ascCmp_total fc
    simp only [handleSortToggle]
    exact h.imp (by simp only [decide_eq_true_eq]; exact fun h => h)

/-- Witness for C2 from the initial state on a concrete two-cell dataset:
the first toggle permutes the set and sorts it descending. -/
theorem handleSortToggle_spec_witness :
    List.Perm (handleSortToggle (initState [⟨"a", 2⟩, ⟨"b", 1⟩])).filteredCells
      (initState [⟨"a", 2⟩, ⟨"b", 1⟩]).filteredCells
    ∧ (handleSortToggle (initState [⟨"a", 2⟩, ⟨"b", 1⟩])).sortAsc
      = !(initState [⟨"a", 2⟩, ⟨"b", 1⟩]).sortAsc
    ∧ (handleSortToggle (initState [⟨"a", 2⟩, ⟨"b", 1⟩])).filteredCells.Pairwise
        (fun a b => b.timestamp ≤ a.timestamp) := by
  have h := handleSortToggle_spec (initState [⟨"a", 2⟩, ⟨"b", 1⟩])
  exact ⟨h.1, h.2.1, h.2.2.1 rfl⟩

theorem perm_sorted_unique : ∀ (l2 l1 : List DateCell),
    List.Perm l1 l2 →
    l1.Pairwise (fun a b => a.timestamp ≤ b.timestamp) →
    l2.Pairwise (fun a b => a.timestamp < b.timestamp) →
    l1 = l2
  | [], l1, hp, _, _ => hp.eq_nil
  | a :: t, [], hp, _, _ => absurd hp.symm.eq_nil (List.cons_ne_nil a t)
  | a :: t, b :: t1, hp, hs1, hs2 => by
    have hba : b = a := by
      rcases List.mem_cons.mp (hp.subset (List.mem_cons_self b t1)) with h | hbt
      · exact h
      · have h1 : a.timestamp < b.timestamp := (List.pairwise_cons.mp hs2).1 b hbt
        rcases List.mem_cons.mp (hp.symm.subset (List.mem_cons_self a t)) with h2 | hat
        · rw [h2] at h1
          exact absurd h1 (lt_irrefl _)
        · have h3 : b.timestamp ≤ a.timestamp := (List.pairwise_cons.mp hs1).1 a hat
          exact absurd h1 (not_lt.mpr h3)
    subst hba
    have hp' := hp.cons_inv
    have ht := perm_sorted_unique t t1 hp'
      (List.pairwise_cons.mp hs1).2 (List.pairwise_cons.mp hs2).2
    rw [ht]

/-- C3 counterexample: from the initial (unsorted) state over the
three-cell dataset with timestamps 2, 1, 3, two successive sort toggles
produce the ascending order 1, 2, 3, not the original relative order. -/
theorem toggleSort_twice_cex :
    (handleSortToggle (handleSortToggle
        (initState [⟨"a", 2⟩, ⟨"b", 1⟩, ⟨"c", 3⟩]))).filteredCells
      ≠ (initState [⟨"a", 2⟩, ⟨"b", 1⟩, ⟨"c", 3⟩]).filteredCells := by
  have h1 : (handleSortToggle (handleSortToggle
      (initState [⟨"a", 2⟩, ⟨"b", 1⟩, ⟨"c", 3⟩]))).filteredCells
      = [⟨"b", 1⟩, ⟨"a", 2⟩, ⟨"c", 3⟩] := by
    simp [initState, handleSortToggle, List.mergeSort]
  rw [h1]
  intro h
  exact absurd (List.head_eq_of_cons_eq h) (by decide)

/-- C3 (amended): two successive toggles always preserve membership (the
result is a permutation of the original filtered set) and restore the
direction flag, but they do not in general restore the original relative
order: they do exactly when the filtered set was already in strictly
ascending timestamp order (for the flag starting true), since sorting
descending then ascending then reproduces the original list. -/
theorem toggleSort_twice_spec (s : ViewState) :
    List.Perm (handleSortToggle (handleSortToggle s)).filteredCells s.filteredCells
    ∧ (handleSortToggle (handleSortToggle s)).sortAsc = s.sortAsc
    ∧ (s.sortAsc = true →
        s.filteredCells.Pairwise (fun a b => a.timestamp < b.timestamp) →
        (handleSortToggle (handleSortToggle s)).filteredCells = s.filteredCells) := by
  refine ⟨(handleSortToggle_perm _).trans (handleSortToggle_perm s), ?_, ?_⟩
  · rcases s with ⟨fc, pg, sa⟩
    simp [handleSortToggle]
  · intro hsa hstrict
    apply perm_sorted_unique
    · exact (handleSortToggle_perm _).trans (handleSortToggle_perm s)
    · rcases s with ⟨fc, pg, sa⟩
      cases hsa
      have h := @List.sorted_mergeSort DateCell
        (fun a b : DateCell => decide (a.timestamp ≤ b.timestamp))
        ascCmp_trans ascCmp_total
        (handleSortToggle ⟨fc, pg, true⟩).filteredCells
      simp only [handleSortToggle, if_pos rfl, Bool.not_true]
      exact h.imp (by simp only [decide_eq_true_eq]; exact fun h => h)
    · exact hstrict

/-- Witness for C3 on a strictly ascending two-cell filtered set: two
toggles reproduce it exactly. -/
theorem toggleSort_twice_spec_witness :
    (List.Perm (handleSortToggle (handleSortToggle
          (initState [⟨"b", 1⟩, ⟨"a", 2⟩]))).filteredCells
        (initState [⟨"b", 1⟩, ⟨"a", 2⟩]).filteredCells)
    ∧ (handleSortToggle (handleSortToggle
        (initState [⟨"b", 1⟩, ⟨"a", 2⟩]))).filteredCells
      = (initState [⟨"b", 1⟩, ⟨"a", 2⟩]).filteredCells := by
  have h := toggleSort_twice_spec (initState [⟨"b", 1⟩, ⟨"a", 2⟩])
  exact ⟨h.1, h.2.2 rfl (by simp [initState, List.pairwise_cons])⟩

theorem foldl_min_le_init (ts : List Int) : ∀ t : Int, ts.foldl min t ≤ t := by
  induction ts with
  | nil => intro t; exact le_refl t
  | cons a ts ih =>
    intro t
    calc (a :: ts).foldl min t = ts.foldl min (min t a) := rfl
    _ ≤ min t a := ih (min t a)
    _ ≤ t := min_le_left t a

theorem foldl_min_le_mem (ts : List Int) : ∀ (t x : Int), x ∈ ts → ts.foldl min t ≤ x := by
  induction ts with
  | nil => intro t x hx; cases hx
  | cons a ts ih =>
    intro t x hx
    rcases List.mem_cons.mp hx with rfl | hx
    · calc (x :: ts).foldl min t = ts.foldl min (min t x) := rfl
      _ ≤ min t x := foldl_min_le_init ts (min t x)
      _ ≤ x := min_le_right t x
    · exact ih (min t a) x hx

theorem foldl_min_mem (ts : List Int) : ∀ t : Int, ts.foldl min t = t ∨ ts.foldl min t ∈ ts := by
  induction ts with
  | nil => intro t; exact Or.inl rfl
  | cons a ts ih =>
    intro t
    rcases ih (min t a) with h | h
    · rcases min_choice t a with hm | hm
      · exact Or.inl (by rw [List.foldl_cons, h, hm])
      · exact Or.inr (by rw [List.foldl_cons, h, hm]; exact List.mem_cons_self a ts)
    · exact Or.inr (List.mem_cons_of_mem a h)

theorem foldl_max_ge_init (ts : List Int) : ∀ t : Int, t ≤ ts.foldl max t := by
  induction ts with
  | nil => intro t; exact le_refl t
  | cons a ts ih =>
    intro t
    calc t ≤ max t a := le_max_left t a
    _ ≤ ts.foldl max (max t a) := ih (max t a)
    _ = (a :: ts).foldl max t := rfl

theorem foldl_max_ge_mem (ts : List Int) : ∀ (t x : Int), x ∈ ts → x ≤ ts.foldl max t := by
  induction ts with
  | nil => intro t x hx; cases hx
  | cons a ts ih =>
    intro t x hx
    rcases List.mem_cons.mp hx with rfl | hx
    · calc x ≤ max t x := le_max_right t x
      _ ≤ ts.foldl max (max t x) := foldl_max_ge_init ts (max t x)
      _ = (x :: ts).foldl max t := rfl
    · exact ih (max t a) x hx

theorem foldl_max_mem (ts : List Int) : ∀ t : Int, ts.foldl max t = t ∨ ts.foldl max t ∈ ts := by
  induction ts with
  | nil => intro t; exact Or.inl rfl
  | cons a ts ih =>
    intro t
    rcases ih (max t a) with h | h
    · rcases max_choice t a with hm | hm
      · exact Or.inl (by rw [List.foldl_cons, h, hm])
      · exact Or.inr (by rw [List.foldl_cons, h, hm]; exact List.mem_cons_self a ts)
    · exact Or.inr (List.mem_cons_of_mem a h)

/-- C9: the stats of a slice report the slice length as the count; on a
non-empty slice the earliest and latest values are the minimum and
maximum timestamps over the slice (both attained by some record); on an
empty slice the min/max computation yields the invalid-value sentinel
(`none`, modelling the non-finite result of an empty `Math.min`/
`Math.max` spread) rather than failing. -/
theorem StatsSection_spec (cells : List DateCell) :
    (StatsSection cells).count = cells.length
    ∧ (cells = [] →
        (StatsSection cells).earliest = none ∧ (StatsSection cells).latest = none)
    ∧ (cells ≠ [] → ∃ e l : Int,
        (StatsSection cells).earliest = some e
        ∧ (StatsSection cells).latest = some l
        ∧ (∃ ce ∈ cells, ce.timestamp = e) ∧ (∃ cl ∈ cells, cl.timestamp = l)
        ∧ ∀ c ∈ cells, e ≤ c.timestamp ∧ c.timestamp ≤ l) := by
  refine ⟨rfl, ?_, ?_⟩
  · rintro rfl
    exact ⟨rfl, rfl⟩
  · intro hne
    rcases cells with _ | ⟨c0, rest⟩
    · exact absurd rfl hne
    refine ⟨(rest.map fun c : DateCell => c.timestamp).foldl min c0.timestamp,
      (rest.map fun c : DateCell => c.timestamp).foldl max c0.timestamp, rfl, rfl, ?_, ?_, ?_⟩
    · rcases foldl_min_mem (rest.map fun c => c.timestamp) c0.timestamp with h | h
      · exact ⟨c0, List.mem_cons_self c0 rest, h.symm⟩
      · rcases List.mem_map.mp h with ⟨ce, hce, he⟩
        exact ⟨ce, List.mem_cons_of_mem c0 hce, he⟩
    · rcases foldl_max_mem (rest.map fun c => c.timestamp) c0.timestamp with h | h
      · exact ⟨c0, List.mem_cons_self c0 rest, h.symm⟩
      · rcases List.mem_map.mp h with ⟨cl, hcl, hl⟩
        exact ⟨cl, List.mem_cons_of_mem c0 hcl, hl⟩
    · intro c hc
      rcases List.mem_cons.mp hc with rfl | hc
      · exact ⟨foldl_min_le_init _ _, foldl_max_ge_init _ _⟩
      · exact ⟨foldl_min_le_mem _ _ _ (List.mem_map.mpr ⟨c, hc, rfl⟩),
          foldl_max_ge_mem _ _ _ (List.mem_map.mpr ⟨c, hc, rfl⟩)⟩

/-- Witness for C9 on a concrete non-empty two-cell slice. -/
theorem StatsSection_spec_witness :
    (StatsSection [⟨"a", 3⟩, ⟨"b", 1⟩]).count = 2
    ∧ (∃ e l : Int,
        (StatsSection [⟨"a", 3⟩, ⟨"b", 1⟩]).earliest = some e
        ∧ (StatsSection [⟨"a", 3⟩, ⟨"b", 1⟩]).latest = some l
        ∧ (∃ ce ∈ [(⟨"a", 3⟩ : DateCell), ⟨"b", 1⟩], ce.timestamp = e)
        ∧ (∃ cl ∈ [(⟨"a", 3⟩ : DateCell), ⟨"b", 1⟩], cl.timestamp = l)
        ∧ ∀ c ∈ [(⟨"a", 3⟩ : DateCell), ⟨"b", 1⟩], e ≤ c.timestamp ∧ c.timestamp ≤ l) := by
  have h := StatsSection_spec [⟨"a", 3⟩, ⟨"b", 1⟩]
  exact ⟨h.1, h.2.2 (by decide)⟩

theorem digitVal_digitChar (d : Nat) (h : d < 10) :
    digitVal (Nat.digitChar d) = d := by
  interval_cases d <;> rfl

theorem digitChar_ne_dash (d : Nat) (h : d < 10) : Nat.digitChar d ≠ Char.ofNat 45 := by
  interval_cases d <;> decide

theorem foldl_digits_toDigitsCore (fuel : Nat) :
    ∀ (n : Nat) (acc : List Char), n < fuel →
      (Nat.toDigitsCore 10 fuel n acc).foldl (fun a c => 10 * a + digitVal c) 0
        = acc.foldl (fun a c => 10 * a + digitVal c) n := by
  induction fuel with
  | zero => intro n acc h; exact absurd h (Nat.not_lt_zero n)
  | succ fuel ih =>
    intro n acc h
    rw [Nat.toDigitsCore]
    by_cases h0 : n / 10 = 0
    · have hn : n < 10 := (Nat.div_eq_zero_iff (by omega)).mp h0
      rw [if_pos h0, List.foldl_cons]
      have hv : digitVal (Nat.digitChar (n % 10)) = n % 10 :=
        digitVal_digitChar (n % 10) (Nat.mod_lt n (by omega))
      rw [hv, Nat.mod_eq_of_lt hn, Nat.mul_zero, Nat.zero_add]
    · have hpos : 0 < n := by
        rcases Nat.eq_zero_or_pos n with rfl | hp
        · exact absurd (by omega) h0
        · exact hp
      have h1 : n / 10 < fuel := by
        have h2 : n / 10 < n := Nat.div_lt_self hpos (by omega)
        omega
      rw [if_neg h0, ih (n / 10) (Nat.digitChar (n % 10) :: acc) h1, List.foldl_cons]
      have hv : digitVal (Nat.digitChar (n % 10)) = n % 10 :=
        digitVal_digitChar (n % 10) (Nat.mod_lt n (by omega))
      rw [hv, Nat.div_add_mod]

theorem strVal_repr (n : Nat) : strVal (Nat.repr n) = n := by
  have hd : (Nat.repr n).data = Nat.toDigitsCore 10 (n + 1) n [] := rfl
  show (Nat.repr n).data.foldl (fun a c => 10 * a + digitVal c) 0 = n
  rw [hd, foldl_digits_toDigitsCore (n + 1) n [] (Nat.lt_succ_self n)]
  rfl

theorem repr_injective (m n : Nat) (h : Nat.repr m = Nat.repr n) : m = n := by
  rw [← strVal_repr m, ← strVal_repr n, h]

theorem toDigitsCore_ne_dash (fuel : Nat) :
    ∀ (n : Nat) (acc : List Char), (∀ ch ∈ acc, ch ≠ Char.ofNat 45) →
      ∀ ch ∈ Nat.toDigitsCore 10 fuel n acc, ch ≠ Char.ofNat 45 := by
  induction fuel with
  | zero => intro n acc hacc; exact hacc
  | succ fuel ih =>
    intro n acc hacc
    rw [Nat.toDigitsCore]
    by_cases h0 : n / 10 = 0
    · rw [if_pos h0]
      intro ch hch
      rcases List.mem_cons.mp hch with rfl | hch
      · exact digitChar_ne_dash (n % 10) (Nat.mod_lt n (by omega))
      · exact hacc ch hch
    · rw [if_neg h0]
      apply ih
      intro ch hch
      rcases List.mem_cons.mp hch with rfl | hch
      · exact digitChar_ne_dash (n % 10) (Nat.mod_lt n (by omega))
      · exact hacc ch hch

theorem repr_ne_dash (n : Nat) : ∀ ch ∈ (Nat.repr n).data, ch ≠ Char.ofNat 45 := by
  have hd : (Nat.repr n).data = Nat.toDigitsCore 10 (n + 1) n [] := rfl
  rw [hd]
  exact toDigitsCore_ne_dash (n + 1) n [] (by intro ch hch; cases hch)

theorem append_dash_inj (a : List Char) : ∀ (a2 b b2 : List Char),
    Char.ofNat 45 ∉ a → Char.ofNat 45 ∉ a2 →
    a ++ Char.ofNat 45 :: b = a2 ++ Char.ofNat 45 :: b2 → a = a2 ∧ b = b2 := by
  induction a with
  | nil =>
    intro a2 b b2 _ h2 h
    cases a2 with
    | nil => simpa using h
    | cons c t =>
      have hc : Char.ofNat 45 = c := by
        have := congrArg (fun l => l.head?) h
        simpa using this
      exact absurd (hc ▸ List.mem_cons_self c t) h2
  | cons c t ih =>
    intro a2 b b2 h1 h2 h
    cases a2 with
    | nil =>
      have hc : c = Char.ofNat 45 := by
        have := congrArg (fun l => l.head?) h
        simpa using this
      exact absurd (hc ▸ List.mem_cons_self c t) h1
    | cons c2 t2 =>
      have hc : c = c2 ∧ t ++ Char.ofNat 45 :: b = t2 ++ Char.ofNat 45 :: b2 := by
        simpa using h
      obtain ⟨rfl, hrest⟩ := hc
      have hr := ih t2 b b2 (fun hm => h1 (List.mem_cons_of_mem c hm))
        (fun hm => h2 (List.mem_cons_of_mem c hm)) hrest
      exact ⟨by rw [hr.1], hr.2⟩

theorem cellId_data (r c : Nat) :
    (cellId r c).data = (Nat.repr r).data ++ Char.ofNat 45 :: (Nat.repr c).data := by
  show (toString r ++ "-" ++ toString c).data = _
  rw [String.data_append, String.data_append]
  show ((Nat.repr r).data ++ [Char.ofNat 45]) ++ (Nat.repr c).data = _
  rw [List.append_assoc]
  rfl

theorem cellId_inj (r c r2 c2 : Nat) (h : cellId r c = cellId r2 c2) :
    r = r2 ∧ c = c2 := by
  have hd : (Nat.repr r).data ++ Char.ofNat 45 :: (Nat.repr c).data
      = (Nat.repr r2).data ++ Char.ofNat 45 :: (Nat.repr c2).data := by
    rw [← cellId_data, ← cellId_data, h]
  have hsplit := append_dash_inj (Nat.repr r).data (Nat.repr r2).data
    (Nat.repr c).data (Nat.repr c2).data
    (fun hm => repr_ne_dash r (Char.ofNat 45) hm rfl)
    (fun hm => repr_ne_dash r2 (Char.ofNat 45) hm rfl) hd
  exact ⟨repr_injective r r2 (String.ext hsplit.1),
    repr_injective c c2 (String.ext hsplit.2)⟩

theorem generateGrid_flatten_length (rows cols : Nat) (baseDate : Int)
    (rd rm : Nat → Nat → Nat) :
    ((generateGrid rows cols baseDate rd rm).flatten).length = rows * cols := by
  simp [generateGrid, List.length_flatten, List.map_map, Function.comp_def,
    List.map_const', List.sum_replicate, smul_eq_mul, Nat.mul_comm]

theorem generateGrid_ids_eq (rows cols : Nat) (baseDate : Int)
    (rd rm : Nat → Nat → Nat) :
    ((generateGrid rows cols baseDate rd rm).flatten).map (fun c => c.id)
      = ((List.range rows).map fun row =>
          (List.range cols).map fun col => cellId row col).flatten := by
  simp [generateGrid, List.map_map, Function.comp_def]

theorem generateGrid_ids_nodup (rows cols : Nat) (baseDate : Int)
    (rd rm : Nat → Nat → Nat) :
    (((generateGrid rows cols baseDate rd rm).flatten).map fun c => c.id).Nodup := by
  rw [generateGrid_ids_eq]
  apply List.nodup_flatten.mpr
  constructor
  · intro l hl
    obtain ⟨row, _, rfl⟩ := List.mem_map.mp hl
    apply List.Nodup.map
    · intro c1 c2 hcc
      exact (cellId_inj row c1 row c2 hcc).2
    · exact List.nodup_range cols
  · apply List.pairwise_map.mpr
    apply List.Pairwise.imp ?_ (List.nodup_range rows)
    intro r1 r2 hne x hx1 hx2
    obtain ⟨c1, _, hid1⟩ := List.mem_map.mp hx1
    obtain ⟨c2, _, hid2⟩ := List.mem_map.mp hx2
    exact hne ((cellId_inj r1 c1 r2 c2 (hid1.trans hid2.symm)).1)

theorem generateGrid_timestamp_bounds (rows cols : Nat) (baseDate : Int)
    (rd rm : Nat → Nat → Nat)
    (hd : ∀ r c, rd r c < 365) (hm : ∀ r c, rm r c < 1440) :
    ∀ cell ∈ (generateGrid rows cols baseDate rd rm).flatten,
      baseDate ≤ cell.timestamp ∧ cell.timestamp < baseDate + 365 * MS_PER_DAY := by
  intro cell hcell
  rcases List.mem_flatten.mp hcell with ⟨l, hlL, hcl⟩
  rcases List.mem_map.mp hlL with ⟨row, _, rfl⟩
  rcases List.mem_map.mp hcl with ⟨col, _, rfl⟩
  have h1 := hd row col
  have h2 := hm row col
  simp only [generateRandomDate, MS_PER_DAY, MS_PER_MINUTE]
  omega

/-- C8: for all positive dimensions, `generateGrid` produces exactly
rows * cols records, their ids are pairwise distinct, and every
timestamp lies in the half-open window from the baseline (midnight of
the generation day) to the baseline plus 365 days, given that every
random day offset is below 365 and every random minute offset below
1440 (the ranges of the `Math.random` draws in the source). -/
theorem generateGrid_spec (rows cols : Nat) (baseDate : Int)
    (rd rm : Nat → Nat → Nat)
    (_hrows : 0 < rows) (_hcols : 0 < cols)
    (hd : ∀ r c, rd r c < 365) (hm : ∀ r c, rm r c < 1440) :
    ((generateGrid rows cols baseDate rd rm).flatten).length = rows * cols
    ∧ (((generateGrid rows cols baseDate rd rm).flatten).map fun c => c.id).Nodup
    ∧ ∀ cell ∈ (generateGrid rows cols baseDate rd rm).flatten,
        baseDate ≤ cell.timestamp ∧ cell.timestamp < baseDate + 365 * MS_PER_DAY :=
  ⟨generateGrid_flatten_length rows cols baseDate rd rm,
    generateGrid_ids_nodup rows cols baseDate rd rm,
    generateGrid_timestamp_bounds rows cols baseDate rd rm hd hm⟩

/-- Witness for C8 on a concrete 1 × 2 grid with extreme random draws. -/
theorem generateGrid_spec_witness :
    ((generateGrid 1 2 0 (fun _ _ => 364) (fun _ _ => 1439)).flatten).length = 1 * 2
    ∧ (((generateGrid 1 2 0 (fun _ _ => 364) (fun _ _ => 1439)).flatten).map
        fun c => c.id).Nodup
    ∧ ∀ cell ∈ (generateGrid 1 2 0 (fun _ _ => 364) (fun _ _ => 1439)).flatten,
        (0 : Int) ≤ cell.timestamp ∧ cell.timestamp < 0 + 365 * MS_PER_DAY :=
  generateGrid_spec 1 2 0 (fun _ _ => 364) (fun _ _ => 1439)
    (by decide) (by decide) (fun _ _ => Nat.le.refl) (fun _ _ => Nat.le.refl)

end Bar
